import Mathlib

/-!
Shallow embedding of `src/Solut.py`, a per-tick adaptive traffic-signal
controller (`ParticipantController`).  Python floats are modelled as exact
rationals for all demand/score arithmetic and as real numbers for the
duration computation (which takes a square root); Python dicts are modelled
as total functions with the source's `.get` defaults composed in.
-/

/-- A static signal phase: an integer index and a signal-state string,
modelled as its list of characters. -/
structure TrafficPhase where
  index : Int
  state : List Char
deriving DecidableEq

/-- The per-intersection record found in `observation["lights"]`, with the
source's `.get` defaults (`time_to_next_switch` 0.0, `current_phase` None,
`time_in_phase` 0.0) already applied.  A Python falsy (empty) dict is
represented as `none` at the use site, not as a `LightInfo`. -/
structure LightInfo where
  time_to_next_switch : ℚ := 0
  current_phase : Option Int := none
  time_in_phase : ℚ := 0
deriving DecidableEq

/-- The per-tick observation.  `lights = none` models an observation without
a `"lights"` key; `some f` with `f tls = none` models an intersection absent
from the lights dict, and `f tls = some none` one bound to a falsy value.
`waiting_vehicles` is total, with the source's missing-key default 0
composed in. -/
structure Observation where
  lights : Option (String → Option (Option LightInfo)) := some (fun _ => none)
  waiting_vehicles : String → Int → ℚ := fun _ _ => 0

/-- The mutable controller state of `ParticipantController`. -/
structure CtrlState where
  tls_ids : List String
  min_green_duration : ℚ
  max_green_duration : ℚ
  green_phases : String → List Int
  cursor : String → Int
  last_phase_actions : String → Int → ℚ

/-- The green-phase test from `__init__`: no `'y'` in the state string and at
least one of `'G'`, `'g'` present. -/
def isGreenPhase (ph : TrafficPhase) : Bool :=
  !(ph.state.contains 'y') && (ph.state.contains 'G' || ph.state.contains 'g')

/-- The list comprehension of `__init__` (before sorting). -/
def greensRaw (phases : List TrafficPhase) : List Int :=
  (phases.filter isGreenPhase).map TrafficPhase.index

/-- Ascending-sorted green phase indices, as stored in `self.green_phases`. -/
def greensFromCatalog (phases : List TrafficPhase) : List Int :=
  List.insertionSort (fun a b => a ≤ b) (greensRaw phases)

/-- The initialization loop of `__init__`: walk the catalogs, fail on the
first intersection without a green phase, otherwise record its sorted greens
and reset its cursor. -/
def initLoop : List (String × List TrafficPhase) → CtrlState → Except String CtrlState
  | [], st => Except.ok st
  | (tls, phases) :: rest, st =>
    let greens := greensRaw phases
    if greens.isEmpty then
      Except.error tls
    else
      initLoop rest { st with
        green_phases := Function.update st.green_phases tls
          (List.insertionSort (fun a b => a ≤ b) greens),
        cursor := Function.update st.cursor tls 0 }

/-- `ParticipantController.__init__`: construction either aborts with an
error (`RuntimeError`) or yields the initial controller state. -/
def controllerInit (catalogs : List (String × List TrafficPhase)) : Except String CtrlState :=
  initLoop catalogs
    { tls_ids := catalogs.map Prod.fst
      min_green_duration := 7
      max_green_duration := 70
      green_phases := fun _ => []
      cursor := fun _ => 0
      last_phase_actions := fun _ _ => 0 }

/-- `_calculate_waiting_traffic`. -/
def _calculate_waiting_traffic (obs : Observation) (tls : String) (phase_id : Int) : ℚ :=
  obs.waiting_vehicles tls phase_id

/-- `_estimate_phase_capacity`: `max(10.0, 100.0 + waiting * 1.5)`. -/
def _estimate_phase_capacity (obs : Observation) (tls : String) (phase_id : Int) : ℚ :=
  max 10 (100 + _calculate_waiting_traffic obs tls phase_id * (3/2))

/-- `_calculate_phase_efficiency`: 0 for nonpositive waiting, else
`waiting * capacity`. -/
def _calculate_phase_efficiency (obs : Observation) (tls : String) (phase_id : Int) : ℚ :=
  let waiting := _calculate_waiting_traffic obs tls phase_id
  if waiting ≤ 0 then 0 else waiting * _estimate_phase_capacity obs tls phase_id

/-- The descending-score order used by both `sort(key=lambda x: x[1],
reverse=True)` calls; a stable insertion sort with this relation equals
Python's stable descending sort. -/
def scoreDesc (a b : Int × ℚ) : Prop := b.2 ≤ a.2

instance : DecidableRel scoreDesc := fun a b => inferInstanceAs (Decidable (b.2 ≤ a.2))

instance : IsTotal (Int × ℚ) scoreDesc := ⟨fun a b => le_total b.2 a.2⟩

instance : IsTrans (Int × ℚ) scoreDesc := ⟨fun _ _ _ h1 h2 => le_trans h2 h1⟩

/-- `_get_phase_priority`: score every green phase, sort descending (stable). -/
def _get_phase_priority (st : CtrlState) (obs : Observation) (tls : String) : List (Int × ℚ) :=
  List.insertionSort scoreDesc
    ((st.green_phases tls).map (fun phase_id =>
      (phase_id, _calculate_phase_efficiency obs tls phase_id)))

/-- The switch penalty applied to every phase other than `current_phase`
(`eff -= 120.0 / (time_in_phase + 1.0)`). -/
def applyPenalty (li : LightInfo) (pe : Int × ℚ) : Int × ℚ :=
  if some pe.1 ≠ li.current_phase then (pe.1, pe.2 - 120 / (li.time_in_phase + 1)) else pe

/-- The penalty-adjusted ranking (`priorities` after its descending sort). -/
def adjustedPriorities (st : CtrlState) (obs : Observation) (tls : String)
    (li : LightInfo) : List (Int × ℚ) :=
  List.insertionSort scoreDesc ((_get_phase_priority st obs tls).map (applyPenalty li))

/-- `raw_priorities[0][1]`, the top raw efficiency. -/
def rawBestEff (st : CtrlState) (obs : Observation) (tls : String) : ℚ :=
  ((_get_phase_priority st obs tls).headD (0, 0)).2

/-- `next((s for p, s in raw_priorities if p == current_phase), 0)`. -/
def currentRawEff (st : CtrlState) (obs : Observation) (tls : String) (cp : Int) : ℚ :=
  (((_get_phase_priority st obs tls).find? (fun pe => pe.1 == cp)).map Prod.snd).getD 0

/-- Steps 1-3 of `decide_next_phase` for one eligible intersection: the
penalty-adjusted top phase, overridden by `current_phase` when the stay rule
`current_eff >= 0.85 * best_eff` fires. -/
def selectPhase (st : CtrlState) (obs : Observation) (tls : String) (li : LightInfo) : Int :=
  let best_phase := ((adjustedPriorities st obs tls li).headD (0, 0)).1
  match li.current_phase with
  | none => best_phase
  | some cp =>
    if (17/20) * rawBestEff st obs tls ≤ currentRawEff st obs tls cp then cp else best_phase

/-- `observation.get("lights", {}).get(tls_id)`. -/
def lightsLookup (obs : Observation) (tls : String) : Option (Option LightInfo) :=
  match obs.lights with
  | none => none
  | some f => f tls

/-- The per-intersection skip/act logic of the loop body, reduced to the
selected phase: `none` when the intersection has no (truthy) light info or
`time_to_next_switch > 0.5`. -/
def stepPhase (st : CtrlState) (obs : Observation) (tls : String) : Option Int :=
  match lightsLookup obs tls with
  | none => none
  | some none => none
  | some (some li) =>
    if (1/2 : ℚ) < li.time_to_next_switch then none
    else some (selectPhase st obs tls li)

open Classical in
/-- Round half to even, as Python's `f"{x:.1f}"` formatting does (exact-real
model of the binary double rounding). -/
noncomputable def rte (x : ℝ) : ℤ :=
  if Int.fract x = 1/2 then (if 2 ∣ ⌊x⌋ then ⌊x⌋ else ⌊x⌋ + 1) else round x

/-- `float(f"{duration:.1f}")`: round to one decimal place. -/
noncomputable def round1 (x : ℝ) : ℝ := (rte (10 * x) : ℝ) / 10

/-- Step 4 of `decide_next_phase`: the adaptive green duration
`min_green + 0.27*waiting + 0.17*sqrt(capacity)`, clamped to
`[min_green, max_green]`, decayed by `0.9` when `time_in_phase > 60`
(without re-clamping), rounded to one decimal. -/
noncomputable def phaseDuration (st : CtrlState) (obs : Observation) (tls : String)
    (best_phase : Int) (time_in_phase : ℚ) : ℝ :=
  let waiting : ℚ := _calculate_waiting_traffic obs tls best_phase
  let capacity : ℚ := _estimate_phase_capacity obs tls best_phase
  let d1 : ℝ := (st.min_green_duration : ℝ) + (27/100) * (waiting : ℝ)
    + (17/100) * Real.sqrt (capacity : ℝ)
  let d2 : ℝ := max (st.min_green_duration : ℝ) (min (st.max_green_duration : ℝ) d1)
  let d3 : ℝ := if 60 < time_in_phase then d2 * (9/10) else d2
  round1 d3

/-- The full per-intersection loop body: `none` when skipped, otherwise the
selected phase with its duration. -/
noncomputable def stepDecision (st : CtrlState) (obs : Observation) (tls : String) :
    Option (Int × ℝ) :=
  match lightsLookup obs tls with
  | none => none
  | some none => none
  | some (some li) =>
    if (1/2 : ℚ) < li.time_to_next_switch then none
    else
      let best_phase := selectPhase st obs tls li
      some (best_phase, phaseDuration st obs tls best_phase li.time_in_phase)

/-- Step 5 of `decide_next_phase`: bump the diagnostic selection counter of
`(tls, phase_id)`. -/
def bumpCounter (st : CtrlState) (tls : String) (phase_id : Int) : CtrlState :=
  { st with last_phase_actions := fun t p =>
      if t = tls ∧ p = phase_id then st.last_phase_actions t p + 1
      else st.last_phase_actions t p }

/-- The main loop of `decide_next_phase` over `self.tls_ids`, threading the
mutable controller state and accumulating the decision entries in insertion
order. -/
noncomputable def decideLoop (obs : Observation) :
    List String → CtrlState → List (String × Int × ℝ) →
    List (String × Int × ℝ) × CtrlState
  | [], st, acc => (acc, st)
  | tls :: rest, st, acc =>
    match stepDecision st obs tls with
    | none => decideLoop obs rest st acc
    | some (bp, d) => decideLoop obs rest (bumpCounter st tls bp) (acc ++ [(tls, bp, d)])

/-- `decide_next_phase`: the decision map (as an insertion-ordered
association list) or `None` when empty (`return decision or None`), together
with the updated controller state. -/
noncomputable def decide_next_phase (st : CtrlState) (obs : Observation) :
    Option (List (String × Int × ℝ)) × CtrlState :=
  let r := decideLoop obs st.tls_ids st []
  (if r.1.isEmpty then none else some r.1, r.2)

/-- Computable twin of `decideLoop` that drops the (real-valued) durations. -/
def phaseLoop (obs : Observation) :
    List String → CtrlState → List (String × Int) → List (String × Int)
  | [], _, acc => acc
  | tls :: rest, st, acc =>
    match stepPhase st obs tls with
    | none => phaseLoop obs rest st acc
    | some bp => phaseLoop obs rest (bumpCounter st tls bp) (acc ++ [(tls, bp)])

/-- Computable twin of `decide_next_phase` reduced to the emitted
`(tls_id, phase_id)` pairs. -/
def decidePhases (st : CtrlState) (obs : Observation) : Option (List (String × Int)) :=
  let r := phaseLoop obs st.tls_ids st []
  if r.isEmpty then none else some r

/-- Forget the durations of a decision. -/
def phasesOf (dec : Option (List (String × Int × ℝ))) : Option (List (String × Int)) :=
  dec.map (List.map (fun e => (e.1, e.2.1)))

/-- The invariant `__init__` establishes on the fields `decide_next_phase`
reads: distinct intersection ids, and for each a nonempty, ascending-sorted
green-phase list. -/
def WF (st : CtrlState) : Prop :=
  st.tls_ids.Nodup ∧ ∀ tls ∈ st.tls_ids,
    st.green_phases tls ≠ [] ∧ List.Sorted (· ≤ ·) (st.green_phases tls)

instance (st : CtrlState) : Decidable (WF st) := by
  unfold WF; infer_instance

/-! Concrete controllers, observations, and catalogs used to instantiate the
theorems below. -/

/-- A controller with one intersection `"t"` whose green phases are `[0, 2]`. -/
def stTwo : CtrlState :=
  { tls_ids := ["t"]
    min_green_duration := 7
    max_green_duration := 70
    green_phases := fun _ => [0, 2]
    cursor := fun _ => 0
    last_phase_actions := fun _ _ => 0 }

/-- Like `stTwo` but with different (nonzero) diagnostic counters. -/
def stTwoCtr : CtrlState := { stTwo with last_phase_actions := fun _ _ => 5 }

/-- A controller with one intersection `"t"` whose single green phase is `0`. -/
def stOne : CtrlState :=
  { tls_ids := ["t"]
    min_green_duration := 7
    max_green_duration := 70
    green_phases := fun _ => [0]
    cursor := fun _ => 0
    last_phase_actions := fun _ _ => 0 }

/-- A controller with two intersections `"a"`, `"b"`, each with green phase `0`. -/
def stPair : CtrlState :=
  { tls_ids := ["a", "b"]
    min_green_duration := 7
    max_green_duration := 70
    green_phases := fun _ => [0]
    cursor := fun _ => 0
    last_phase_actions := fun _ _ => 0 }

/-- A light reporting a `current_phase` (7) that is not a green phase. -/
def liC1 : LightInfo :=
  { time_to_next_switch := 0, current_phase := some 7, time_in_phase := 0 }

/-- Observation: intersection `"t"` due to switch, invalid current phase 7,
no waiting traffic anywhere. -/
def obsC1 : Observation :=
  { lights := some (fun t => if t = "t" then some (some liC1) else none)
    waiting_vehicles := fun _ _ => 0 }

/-- The spec's end-to-end scenario light: `current_phase = 0`,
`time_in_phase = 10`, `time_to_next_switch = 0`. -/
def liC2 : LightInfo :=
  { time_to_next_switch := 0, current_phase := some 0, time_in_phase := 10 }

/-- The spec's end-to-end scenario: waiting `{0: 5, 2: 50}`. -/
def obsC2 : Observation :=
  { lights := some (fun t => if t = "t" then some (some liC2) else none)
    waiting_vehicles := fun _ p => if p = 0 then 5 else if p = 2 then 50 else 0 }

/-- A light with `time_in_phase = 61 > 60` (long-phase decay active). -/
def liC3 : LightInfo :=
  { time_to_next_switch := 0, current_phase := none, time_in_phase := 61 }

/-- Observation with no waiting traffic and a long-running phase. -/
def obsC3 : Observation :=
  { lights := some (fun t => if t = "t" then some (some liC3) else none)
    waiting_vehicles := fun _ _ => 0 }

/-- A light with `current_phase = 0` and `time_in_phase = 0` (full 120 penalty). -/
def liC4 : LightInfo :=
  { time_to_next_switch := 0, current_phase := some 0, time_in_phase := 0 }

/-- Waiting counts `{0: 37/6, 2: 43/6}`: phase 2's raw efficiency exceeds
phase 0's by exactly the switch penalty 120, so the two adjusted scores tie. -/
def obsC4 : Observation :=
  { lights := some (fun t => if t = "t" then some (some liC4) else none)
    waiting_vehicles := fun _ p => if p = 0 then 37/6 else if p = 2 then 43/6 else 0 }

/-- Same light as the end-to-end scenario (current phase 0, 10 s in phase). -/
def liC5 : LightInfo :=
  { time_to_next_switch := 0, current_phase := some 0, time_in_phase := 10 }

/-- Waiting counts `{0: 75, 2: 250/3}`: phase 0's raw efficiency (15937.5)
is exactly 0.85 times phase 2's (18750). -/
def obsC5 : Observation :=
  { lights := some (fun t => if t = "t" then some (some liC5) else none)
    waiting_vehicles := fun _ p => if p = 0 then 75 else if p = 2 then 250/3 else 0 }

/-- Observation for the eligibility boundary: `"a"` has
`time_to_next_switch = 0.5` (eligible), `"b"` has `0.51` (skipped). -/
def obsC6 : Observation :=
  { lights := some (fun t =>
      if t = "a" then some (some { time_to_next_switch := 1/2 })
      else if t = "b" then some (some { time_to_next_switch := 51/100 })
      else none)
    waiting_vehicles := fun _ _ => 0 }

/-- Observation binding `"t"` to a falsy (empty-dict) lights value. -/
def obsC10 : Observation :=
  { lights := some (fun t => if t = "t" then some none else none)
    waiting_vehicles := fun _ _ => 0 }

/-- Observation lacking the `"lights"` key entirely. -/
def obsC10b : Observation :=
  { lights := none
    waiting_vehicles := fun _ _ => 0 }

/-- A catalog whose intersection has green phases (indices 0 and 2). -/
def catsOK : List (String × List TrafficPhase) :=
  [("t", [⟨0, ['G', 'r']⟩, ⟨1, ['y', 'y']⟩, ⟨2, ['r', 'g']⟩])]

/-- A catalog whose only intersection has no green phase: one phase has a
`'y'`, the other has no `'G'`/`'g'`. -/
def catsBad : List (String × List TrafficPhase) :=
  [("t", [⟨0, ['y', 'G']⟩, ⟨1, ['r', 'r']⟩])]

/-! Facts about the raw priority ranking. -/

lemma mem_get_phase_priority (st : CtrlState) (obs : Observation) (tls : String)
    {x : Int × ℚ} :
    x ∈ _get_phase_priority st obs tls ↔
      x ∈ (st.green_phases tls).map
        (fun p => (p, _calculate_phase_efficiency obs tls p)) :=
  (List.perm_insertionSort _ _).mem_iff

lemma raw_entry (st : CtrlState) (obs : Observation) (tls : String) {x : Int × ℚ}
    (hx : x ∈ _get_phase_priority st obs tls) :
    x.1 ∈ st.green_phases tls ∧ x.2 = _calculate_phase_efficiency obs tls x.1 := by
  rcases List.mem_map.mp ((mem_get_phase_priority st obs tls).mp hx) with ⟨p, hp, rfl⟩
  exact ⟨hp, rfl⟩

lemma raw_length (st : CtrlState) (obs : Observation) (tls : String) :
    (_get_phase_priority st obs tls).length = (st.green_phases tls).length := by
  unfold _get_phase_priority
  rw [(List.perm_insertionSort _ _).length_eq, List.length_map]

lemma raw_ne_nil (st : CtrlState) (obs : Observation) (tls : String)
    (h : st.green_phases tls ≠ []) : _get_phase_priority st obs tls ≠ [] := by
  intro hnil
  exact h (List.eq_nil_of_length_eq_zero (by
    rw [← raw_length st obs tls, hnil]; rfl))

lemma raw_sorted (st : CtrlState) (obs : Observation) (tls : String) :
    List.Sorted scoreDesc (_get_phase_priority st obs tls) :=
  List.sorted_insertionSort scoreDesc _

lemma eff_nonneg (obs : Observation) (tls : String) (q : Int) :
    0 ≤ _calculate_phase_efficiency obs tls q := by
  simp only [_calculate_phase_efficiency]
  split
  · exact le_refl 0
  · rename_i hw
    have h10 : (0:ℚ) < _estimate_phase_capacity obs tls q :=
      lt_of_lt_of_le (by norm_num) (le_max_left 10 _)
    exact mul_nonneg (le_of_lt (lt_of_not_le hw)) (le_of_lt h10)

lemma rawBestEff_ge (st : CtrlState) (obs : Observation) (tls : String)
    (h : st.green_phases tls ≠ []) (q : Int) (hq : q ∈ st.green_phases tls) :
    _calculate_phase_efficiency obs tls q ≤ rawBestEff st obs tls := by
  have hmem : (q, _calculate_phase_efficiency obs tls q) ∈ _get_phase_priority st obs tls :=
    (mem_get_phase_priority st obs tls).mpr (List.mem_map.mpr ⟨q, hq, rfl⟩)
  rcases hl : _get_phase_priority st obs tls with _ | ⟨y, ys⟩
  · exact absurd hl (raw_ne_nil st obs tls h)
  · have hs := raw_sorted st obs tls
    rw [hl] at hs hmem
    unfold rawBestEff
    rw [hl]
    rcases List.mem_cons.mp hmem with heq | htl
    · rw [← heq]
      exact le_refl _
    · exact List.rel_of_sorted_cons hs _ htl

lemma rawBestEff_eq_eff (st : CtrlState) (obs : Observation) (tls : String)
    (h : st.green_phases tls ≠ []) :
    ∃ q ∈ st.green_phases tls,
      rawBestEff st obs tls = _calculate_phase_efficiency obs tls q := by
  rcases hl : _get_phase_priority st obs tls with _ | ⟨y, ys⟩
  · exact absurd hl (raw_ne_nil st obs tls h)
  · have hy : y ∈ _get_phase_priority st obs tls := by rw [hl]; exact List.mem_cons_self y ys
    rcases raw_entry st obs tls hy with ⟨h1, h2⟩
    exact ⟨y.1, h1, by unfold rawBestEff; rw [hl]; exact h2⟩

lemma rawBestEff_nonneg (st : CtrlState) (obs : Observation) (tls : String) :
    0 ≤ rawBestEff st obs tls := by
  rcases hl : _get_phase_priority st obs tls with _ | ⟨y, ys⟩
  · unfold rawBestEff; rw [hl]; exact le_refl 0
  · have hy : y ∈ _get_phase_priority st obs tls := by rw [hl]; exact List.mem_cons_self y ys
    rcases raw_entry st obs tls hy with ⟨_, h2⟩
    unfold rawBestEff
    rw [hl]
    exact h2 ▸ eff_nonneg obs tls y.1

lemma currentRawEff_eq (st : CtrlState) (obs : Observation) (tls : String) {cp : Int}
    (hcp : cp ∈ st.green_phases tls) :
    currentRawEff st obs tls cp = _calculate_phase_efficiency obs tls cp := by
  have hmem : (cp, _calculate_phase_efficiency obs tls cp) ∈ _get_phase_priority st obs tls :=
    (mem_get_phase_priority st obs tls).mpr (List.mem_map.mpr ⟨cp, hcp, rfl⟩)
  have hsome : ((_get_phase_priority st obs tls).find? (fun pe => pe.1 == cp)).isSome :=
    List.find?_isSome.mpr ⟨_, hmem, by simp⟩
  rcases hfind : (_get_phase_priority st obs tls).find? (fun pe => pe.1 == cp) with _ | x
  · rw [hfind] at hsome; simp at hsome
  · have hx1 : x.1 = cp := by simpa using List.find?_some hfind
    rcases raw_entry st obs tls (List.mem_of_find?_eq_some hfind) with ⟨_, h2⟩
    unfold currentRawEff
    rw [hfind]
    simp [h2, hx1]

lemma currentRawEff_eq_zero (st : CtrlState) (obs : Observation) (tls : String) {cp : Int}
    (hcp : cp ∉ st.green_phases tls) : currentRawEff st obs tls cp = 0 := by
  have hnone : (_get_phase_priority st obs tls).find? (fun pe => pe.1 == cp) = none := by
    rw [List.find?_eq_none]
    intro x hx
    rcases raw_entry st obs tls hx with ⟨h1, _⟩
    simp only [beq_iff_eq]
    intro heq
    exact hcp (heq ▸ h1)
  unfold currentRawEff
  rw [hnone]
  rfl

/-! Facts about the penalty-adjusted ranking and the selector. -/

lemma applyPenalty_fst (li : LightInfo) (pe : Int × ℚ) : (applyPenalty li pe).1 = pe.1 := by
  unfold applyPenalty; split <;> rfl

lemma mem_adjusted (st : CtrlState) (obs : Observation) (tls : String) (li : LightInfo)
    {x : Int × ℚ} :
    x ∈ adjustedPriorities st obs tls li ↔
      x ∈ (_get_phase_priority st obs tls).map (applyPenalty li) :=
  (List.perm_insertionSort _ _).mem_iff

lemma adjusted_fst_mem (st : CtrlState) (obs : Observation) (tls : String) (li : LightInfo)
    {x : Int × ℚ} (hx : x ∈ adjustedPriorities st obs tls li) :
    x.1 ∈ st.green_phases tls := by
  rcases List.mem_map.mp ((mem_adjusted st obs tls li).mp hx) with ⟨y, hy, rfl⟩
  rw [applyPenalty_fst]
  exact (raw_entry st obs tls hy).1

lemma adjusted_ne_nil (st : CtrlState) (obs : Observation) (tls : String) (li : LightInfo)
    (h : st.green_phases tls ≠ []) : adjustedPriorities st obs tls li ≠ [] := by
  intro hnil
  have hlen : (adjustedPriorities st obs tls li).length =
      (_get_phase_priority st obs tls).length := by
    unfold adjustedPriorities
    rw [(List.perm_insertionSort _ _).length_eq, List.length_map]
  rw [hnil] at hlen
  exact raw_ne_nil st obs tls h (List.eq_nil_of_length_eq_zero hlen.symm)

lemma selectPhase_mem (st : CtrlState) (obs : Observation) (tls : String) (li : LightInfo)
    (hg : st.green_phases tls ≠ [])
    (h : (∀ cp, li.current_phase = some cp → cp ∈ st.green_phases tls) ∨
      0 < rawBestEff st obs tls) :
    selectPhase st obs tls li ∈ st.green_phases tls := by
  have hbest : ((adjustedPriorities st obs tls li).headD (0, 0)).1 ∈ st.green_phases tls := by
    rcases hl : adjustedPriorities st obs tls li with _ | ⟨y, ys⟩
    · exact absurd hl (adjusted_ne_nil st obs tls li hg)
    · exact adjusted_fst_mem st obs tls li (by rw [hl]; exact List.mem_cons_self y ys)
  unfold selectPhase
  rcases hcur : li.current_phase with _ | cp
  · exact hbest
  · dsimp only
    by_cases hm : cp ∈ st.green_phases tls
    · split
      · exact hm
      · exact hbest
    · rcases h with hvalid | hpos
      · exact absurd (hvalid cp hcur) hm
      · rw [currentRawEff_eq_zero st obs tls hm, if_neg (by
          intro hle
          exact absurd (lt_of_lt_of_le (by positivity) hle) (lt_irrefl 0))]
        exact hbest

/-! Facts about the main loop. -/

lemma stepDecision_fst (st : CtrlState) (obs : Observation) (tls : String) :
    (stepDecision st obs tls).map Prod.fst = stepPhase st obs tls := by
  unfold stepDecision stepPhase
  cases h : lightsLookup obs tls with
  | none => rfl
  | some mo =>
    cases mo with
    | none => rfl
    | some li =>
      dsimp only
      split <;> rfl

lemma stepDecision_congr_st (st1 st2 : CtrlState) (obs : Observation) (tls : String)
    (hg : st1.green_phases = st2.green_phases)
    (hmin : st1.min_green_duration = st2.min_green_duration)
    (hmax : st1.max_green_duration = st2.max_green_duration) :
    stepDecision st1 obs tls = stepDecision st2 obs tls := by
  unfold stepDecision selectPhase adjustedPriorities rawBestEff currentRawEff
    _get_phase_priority phaseDuration
  rw [hg, hmin, hmax]

lemma stepDecision_bump (st : CtrlState) (obs : Observation) (a : String) (b : Int)
    (tls : String) : stepDecision (bumpCounter st a b) obs tls = stepDecision st obs tls :=
  stepDecision_congr_st _ _ obs tls rfl rfl rfl

lemma decideLoop_state_fields (obs : Observation) :
    ∀ (l : List String) (st : CtrlState) (acc : List (String × Int × ℝ)),
      (decideLoop obs l st acc).2.tls_ids = st.tls_ids ∧
      (decideLoop obs l st acc).2.green_phases = st.green_phases ∧
      (decideLoop obs l st acc).2.cursor = st.cursor ∧
      (decideLoop obs l st acc).2.min_green_duration = st.min_green_duration ∧
      (decideLoop obs l st acc).2.max_green_duration = st.max_green_duration
  | [], st, acc => ⟨rfl, rfl, rfl, rfl, rfl⟩
  | tls :: rest, st, acc => by
    unfold decideLoop
    cases h : stepDecision st obs tls with
    | none => exact decideLoop_state_fields obs rest st acc
    | some pd =>
      obtain ⟨bp, d⟩ := pd
      exact decideLoop_state_fields obs rest (bumpCounter st tls bp) (acc ++ [(tls, bp, d)])

lemma decideLoop_mem (obs : Observation) (st0 : CtrlState) :
    ∀ (l : List String) (st : CtrlState) (acc : List (String × Int × ℝ)),
      st.green_phases = st0.green_phases →
      st.min_green_duration = st0.min_green_duration →
      st.max_green_duration = st0.max_green_duration →
      ∀ (t : String) (p : Int) (d : ℝ),
        ((t, p, d) ∈ (decideLoop obs l st acc).1 ↔
          (t, p, d) ∈ acc ∨ (t ∈ l ∧ stepDecision st0 obs t = some (p, d)))
  | [], st, acc, hg, hmin, hmax, t, p, d => by
    simp [decideLoop]
  | tls :: rest, st, acc, hg, hmin, hmax, t, p, d => by
    have hstep : stepDecision st obs tls = stepDecision st0 obs tls :=
      stepDecision_congr_st st st0 obs tls hg hmin hmax
    unfold decideLoop
    cases h : stepDecision st obs tls with
    | none =>
      rw [decideLoop_mem obs st0 rest st acc hg hmin hmax t p d]
      have hnone : stepDecision st0 obs tls = none := hstep ▸ h
      constructor
      · rintro (hacc | ⟨htr, hS⟩)
        · exact Or.inl hacc
        · exact Or.inr ⟨List.mem_cons_of_mem tls htr, hS⟩
      · rintro (hacc | ⟨htc, hS⟩)
        · exact Or.inl hacc
        · rcases List.mem_cons.mp htc with rfl | htr
          · rw [hnone] at hS; exact absurd hS (by simp)
          · exact Or.inr ⟨htr, hS⟩
    | some pd =>
      obtain ⟨bp, dd⟩ := pd
      have hsome : stepDecision st0 obs tls = some (bp, dd) := hstep ▸ h
      rw [decideLoop_mem obs st0 rest (bumpCounter st tls bp) (acc ++ [(tls, bp, dd)])
        hg hmin hmax t p d]
      simp only [List.mem_append, List.mem_singleton]
      constructor
      · rintro ((hacc | heq) | ⟨htr, hS⟩)
        · exact Or.inl hacc
        · rcases Prod.mk.injEq .. ▸ heq with ⟨rfl, h23⟩
          rcases Prod.mk.injEq .. ▸ h23 with ⟨rfl, rfl⟩
          exact Or.inr ⟨List.mem_cons_self _ _, hsome⟩
        · exact Or.inr ⟨List.mem_cons_of_mem tls htr, hS⟩
      · rintro (hacc | ⟨htc, hS⟩)
        · exact Or.inl (Or.inl hacc)
        · rcases List.mem_cons.mp htc with rfl | htr
          · rw [hsome] at hS
            rcases Option.some.injEq .. ▸ hS with ⟨rfl, rfl⟩
            exact Or.inl (Or.inr rfl)
          · exact Or.inr ⟨htr, hS⟩

lemma decideLoop_counter (obs : Observation) (st0 : CtrlState) :
    ∀ (l : List String) (st : CtrlState) (acc : List (String × Int × ℝ)),
      l.Nodup →
      st.green_phases = st0.green_phases →
      st.min_green_duration = st0.min_green_duration →
      st.max_green_duration = st0.max_green_duration →
      ∀ (t : String) (p : Int),
        ((t ∈ l ∧ stepPhase st0 obs t = some p) →
          (decideLoop obs l st acc).2.last_phase_actions t p =
            st.last_phase_actions t p + 1) ∧
        (¬(t ∈ l ∧ stepPhase st0 obs t = some p) →
          (decideLoop obs l st acc).2.last_phase_actions t p = st.last_phase_actions t p)
  | [], st, acc, hnd, hg, hmin, hmax, t, p => by
    constructor
    · rintro ⟨ht, _⟩
      exact absurd ht (List.not_mem_nil t)
    · intro _
      rfl
  | tls :: rest, st, acc, hnd, hg, hmin, hmax, t, p => by
    rcases List.nodup_cons.mp hnd with ⟨htls, hrest⟩
    have hstep : stepDecision st obs tls = stepDecision st0 obs tls :=
      stepDecision_congr_st st st0 obs tls hg hmin hmax
    unfold decideLoop
    cases h : stepDecision st obs tls with
    | none =>
      have hnone : stepPhase st0 obs tls = none := by
        rw [← stepDecision_fst, ← hstep, h]; rfl
      have ih := decideLoop_counter obs st0 rest st acc hrest hg hmin hmax t p
      constructor
      · rintro ⟨htc, hS⟩
        rcases List.mem_cons.mp htc with rfl | htr
        · rw [hnone] at hS; exact absurd hS (by simp)
        · exact ih.1 ⟨htr, hS⟩
      · intro hn
        exact ih.2 (fun hc => hn ⟨List.mem_cons_of_mem tls hc.1, hc.2⟩)
    | some pd =>
      obtain ⟨bp, dd⟩ := pd
      have hsome : stepPhase st0 obs tls = some bp := by
        rw [← stepDecision_fst, ← hstep, h]; rfl
      have ih := decideLoop_counter obs st0 rest (bumpCounter st tls bp)
        (acc ++ [(tls, bp, dd)]) hrest hg hmin hmax t p
      have hbv : (bumpCounter st tls bp).last_phase_actions t p =
          if t = tls ∧ p = bp then st.last_phase_actions t p + 1
          else st.last_phase_actions t p := rfl
      by_cases hA : t = tls ∧ p = bp
      · obtain ⟨rfl, rfl⟩ := hA
        constructor
        · intro _
          have hrec := ih.2 (fun hc => htls hc.1)
          rw [hrec, hbv, if_pos ⟨rfl, rfl⟩]
        · intro hn
          exact absurd ⟨List.mem_cons_self _ _, hsome⟩ hn
      · constructor
        · rintro ⟨htc, hS⟩
          rcases List.mem_cons.mp htc with rfl | htr
          · rw [hsome] at hS
            exact absurd ⟨rfl, (Option.some.injEq .. ▸ hS.symm)⟩ hA
          · rw [ih.1 ⟨htr, hS⟩, hbv, if_neg hA]
        · intro hn
          rw [ih.2 (fun hc => hn ⟨List.mem_cons_of_mem tls hc.1, hc.2⟩), hbv, if_neg hA]

lemma decideLoop_congr_st (obs : Observation) :
    ∀ (l : List String) (st1 st2 : CtrlState) (acc : List (String × Int × ℝ)),
      st1.green_phases = st2.green_phases →
      st1.min_green_duration = st2.min_green_duration →
      st1.max_green_duration = st2.max_green_duration →
      (decideLoop obs l st1 acc).1 = (decideLoop obs l st2 acc).1
  | [], st1, st2, acc, _, _, _ => rfl
  | tls :: rest, st1, st2, acc, hg, hmin, hmax => by
    have hstep : stepDecision st2 obs tls = stepDecision st1 obs tls :=
      stepDecision_congr_st st2 st1 obs tls hg.symm hmin.symm hmax.symm
    unfold decideLoop
    rw [hstep]
    cases h : stepDecision st1 obs tls with
    | none => exact decideLoop_congr_st obs rest st1 st2 acc hg hmin hmax
    | some pd =>
      obtain ⟨bp, d⟩ := pd
      exact decideLoop_congr_st obs rest (bumpCounter st1 tls bp) (bumpCounter st2 tls bp)
        (acc ++ [(tls, bp, d)]) hg hmin hmax

lemma stepDecision_congr_obs (st : CtrlState) (obs1 obs2 : Observation) (tls : String)
    (hl : lightsLookup obs1 tls = lightsLookup obs2 tls)
    (hw : obs1.waiting_vehicles = obs2.waiting_vehicles) :
    stepDecision st obs1 tls = stepDecision st obs2 tls := by
  unfold stepDecision selectPhase adjustedPriorities rawBestEff currentRawEff
    _get_phase_priority phaseDuration _calculate_phase_efficiency
    _estimate_phase_capacity _calculate_waiting_traffic
  rw [hl, hw]

lemma decideLoop_congr_obs (obs1 obs2 : Observation)
    (h : ∀ (st : CtrlState) (t : String), stepDecision st obs1 t = stepDecision st obs2 t) :
    ∀ (l : List String) (st : CtrlState) (acc : List (String × Int × ℝ)),
      decideLoop obs1 l st acc = decideLoop obs2 l st acc
  | [], st, acc => rfl
  | tls :: rest, st, acc => by
    unfold decideLoop
    rw [← h st tls]
    cases hs : stepDecision st obs1 tls with
    | none => exact decideLoop_congr_obs obs1 obs2 h rest st acc
    | some pd =>
      obtain ⟨bp, d⟩ := pd
      exact decideLoop_congr_obs obs1 obs2 h rest (bumpCounter st tls bp) (acc ++ [(tls, bp, d)])

lemma decision_mem (st : CtrlState) (obs : Observation) (t : String) (p : Int) (d : ℝ) :
    (t, p, d) ∈ (decideLoop obs st.tls_ids st []).1 ↔
      t ∈ st.tls_ids ∧ stepDecision st obs t = some (p, d) := by
  rw [decideLoop_mem obs st st.tls_ids st [] rfl rfl rfl t p d]
  simp

lemma mem_decision_iff (st : CtrlState) (obs : Observation) (t : String) (p : Int) (d : ℝ) :
    (∃ dec, (decide_next_phase st obs).1 = some dec ∧ (t, p, d) ∈ dec) ↔
      t ∈ st.tls_ids ∧ stepDecision st obs t = some (p, d) := by
  rw [← decision_mem st obs t p d]
  constructor
  · rintro ⟨dec, hdec, hmem⟩
    unfold decide_next_phase at hdec
    dsimp only at hdec
    split at hdec
    · exact absurd hdec (by simp)
    · injection hdec with h
      exact h ▸ hmem
  · intro hmem
    refine ⟨(decideLoop obs st.tls_ids st []).1, ?_, hmem⟩
    unfold decide_next_phase
    dsimp only
    rw [if_neg (by
      intro hemp
      rw [List.isEmpty_iff.mp hemp] at hmem
      exact List.not_mem_nil _ hmem)]

lemma stepDecision_none_iff (st : CtrlState) (obs : Observation) (t : String) :
    stepDecision st obs t = none ↔
      ∀ li, lightsLookup obs t = some (some li) → (1/2 : ℚ) < li.time_to_next_switch := by
  unfold stepDecision
  cases h : lightsLookup obs t with
  | none => simp
  | some mo =>
    cases mo with
    | none => simp
    | some li =>
      dsimp only
      constructor
      · intro hn li' hli'
        injection hli' with h2
        injection h2 with h3
        subst h3
        by_contra hgt
        rw [if_neg hgt] at hn
        exact absurd hn (by simp)
      · intro hall
        rw [if_pos (hall li rfl)]

lemma decision_none_iff (st : CtrlState) (obs : Observation) :
    (decide_next_phase st obs).1 = none ↔
      ∀ t ∈ st.tls_ids, stepDecision st obs t = none := by
  unfold decide_next_phase
  dsimp only
  split
  · rename_i hemp
    simp only [true_iff]
    intro t ht
    cases hs : stepDecision st obs t with
    | none => rfl
    | some pd =>
      have hmem : (t, pd.1, pd.2) ∈ (decideLoop obs st.tls_ids st []).1 :=
        (decision_mem st obs t pd.1 pd.2).mpr ⟨ht, by rw [hs]⟩
      rw [List.isEmpty_iff.mp hemp] at hmem
      exact absurd hmem (List.not_mem_nil _)
  · rename_i hemp
    simp only [reduceCtorEq, false_iff]
    intro hall
    rcases List.exists_mem_of_ne_nil (decideLoop obs st.tls_ids st []).1
      (fun hnil => hemp (by rw [hnil]; rfl)) with ⟨e, he⟩
    obtain ⟨t, p, d⟩ := e
    rcases (decision_mem st obs t p d).mp he with ⟨ht, hs⟩
    rw [hall t ht] at hs
    exact absurd hs (by simp)

lemma stepDecision_some_inv (st : CtrlState) (obs : Observation) (t : String) (p : Int)
    (d : ℝ) (h : stepDecision st obs t = some (p, d)) :
    ∃ li, lightsLookup obs t = some (some li) ∧ li.time_to_next_switch ≤ 1/2 ∧
      p = selectPhase st obs t li ∧ d = phaseDuration st obs t p li.time_in_phase := by
  unfold stepDecision at h
  cases hl : lightsLookup obs t with
  | none => rw [hl] at h; exact absurd h (by simp)
  | some mo =>
    cases mo with
    | none => rw [hl] at h; exact absurd h (by simp)
    | some li =>
      rw [hl] at h
      dsimp only at h
      split at h
      · exact absurd h (by simp)
      · rename_i hle
        injection h with h2
        obtain ⟨rfl, rfl⟩ : p = selectPhase st obs t li ∧ d = _ := by
          constructor
          · exact congrArg Prod.fst h2.symm
          · exact congrArg Prod.snd h2.symm
        exact ⟨li, rfl, not_lt.mp hle, rfl, rfl⟩

lemma stepDecision_some_gate (st : CtrlState) (obs : Observation) (t : String)
    (li : LightInfo) (hli : lightsLookup obs t = some (some li))
    (hle : li.time_to_next_switch ≤ 1/2) :
    stepDecision st obs t =
      some (selectPhase st obs t li, phaseDuration st obs t (selectPhase st obs t li)
        li.time_in_phase) := by
  unfold stepDecision
  rw [hli]
  dsimp only
  rw [if_neg (not_lt.mpr hle)]

/-! Rounding facts. -/

lemma rte_of_bounds (x : ℝ) (n : ℤ) (h1 : (n : ℝ) ≤ x) (h2 : x < (n : ℝ) + 1/2) :
    rte x = n := by
  have hfl : ⌊x⌋ = n := Int.floor_eq_iff.mpr ⟨h1, by linarith⟩
  have hfr : Int.fract x ≠ 1/2 := by
    intro hf
    rw [Int.fract, hfl] at hf
    have : x = (n : ℝ) + 1/2 := by linarith
    rw [this] at h2
    exact lt_irrefl _ h2
  unfold rte
  rw [if_neg hfr, round_eq]
  exact Int.floor_eq_iff.mpr ⟨by linarith, by linarith⟩

lemma rte_ge (x : ℝ) : x - 1/2 ≤ (rte x : ℝ) := by
  unfold rte
  split
  · rename_i hf
    have hfl : (⌊x⌋ : ℝ) = x - 1/2 := by
      rw [Int.fract] at hf
      linarith
    split
    · linarith
    · push_cast
      linarith
  · have := abs_sub_round x
    rw [abs_le] at this
    linarith [this.1]

/-! Square-root facts. -/

lemma sqrt_hundred : Real.sqrt 100 = 10 := by
  rw [show (100 : ℝ) = 10 ^ 2 by norm_num, Real.sqrt_sq (by norm_num : (0:ℝ) ≤ 10)]

lemma sqrt175_lb : (1322/100 : ℝ) < Real.sqrt 175 :=
  (Real.lt_sqrt (by norm_num)).mpr (by norm_num)

lemma sqrt175_ub : Real.sqrt 175 < 1323/100 :=
  (Real.sqrt_lt' (by norm_num)).mpr (by norm_num)

/-! Duration lower bound: with non-negative waiting counts the clamped
duration is at least 8.7, so even after the 0.9 decay and rounding the
emitted value is at least 7.78. -/

lemma phaseDuration_ge (st : CtrlState) (obs : Observation) (tls : String) (bp : Int)
    (tip : ℚ) (hmin : st.min_green_duration = 7) (hmax : st.max_green_duration = 70)
    (hw : 0 ≤ _calculate_waiting_traffic obs tls bp) :
    (7 : ℝ) ≤ phaseDuration st obs tls bp tip := by
  unfold phaseDuration
  rw [hmin, hmax]
  dsimp only
  have hwR : (0 : ℝ) ≤ (_calculate_waiting_traffic obs tls bp : ℝ) := by exact_mod_cast hw
  have hcap : (100 : ℚ) ≤ _estimate_phase_capacity obs tls bp := by
    unfold _estimate_phase_capacity
    exact le_trans (by linarith) (le_max_right _ _)
  have hcapR : (100 : ℝ) ≤ (_estimate_phase_capacity obs tls bp : ℝ) := by exact_mod_cast hcap
  have hsq : (10 : ℝ) ≤ Real.sqrt (_estimate_phase_capacity obs tls bp : ℝ) := by
    rw [← sqrt_hundred]
    exact Real.sqrt_le_sqrt hcapR
  have h7 : ((7 : ℚ) : ℝ) = (7 : ℝ) := by norm_num
  have h70 : ((70 : ℚ) : ℝ) = (70 : ℝ) := by norm_num
  rw [h7, h70]
  set d1 : ℝ := (7 : ℝ) + 27/100 * (_calculate_waiting_traffic obs tls bp : ℝ)
    + 17/100 * Real.sqrt (_estimate_phase_capacity obs tls bp : ℝ) with hd1def
  have hd1 : (87/10 : ℝ) ≤ d1 := by
    rw [hd1def]
    nlinarith
  have hd2 : (87/10 : ℝ) ≤ max (7 : ℝ) (min (70 : ℝ) d1) :=
    le_trans (le_min (by norm_num) hd1) (le_max_right _ _)
  set d2 : ℝ := max (7 : ℝ) (min (70 : ℝ) d1) with hd2def
  have hd3 : (783/100 : ℝ) ≤ if 60 < tip then d2 * (9/10) else d2 := by
    split
    · nlinarith
    · linarith
  set d3 : ℝ := if 60 < tip then d2 * (9/10) else d2 with hd3def
  unfold round1
  have := rte_ge (10 * d3)
  linarith

/-! Bridge between the full decision and its computable phase projection. -/

lemma decideLoop_phases (obs : Observation) :
    ∀ (l : List String) (st : CtrlState) (acc : List (String × Int × ℝ)),
      (decideLoop obs l st acc).1.map (fun e => (e.1, e.2.1)) =
        phaseLoop obs l st (acc.map (fun e => (e.1, e.2.1)))
  | [], _, _ => rfl
  | tls :: rest, st, acc => by
    unfold decideLoop phaseLoop
    cases h : stepDecision st obs tls with
    | none =>
      have hp : stepPhase st obs tls = none := by rw [← stepDecision_fst, h]; rfl
      rw [hp]
      exact decideLoop_phases obs rest st acc
    | some pd =>
      obtain ⟨bp, d⟩ := pd
      have hp : stepPhase st obs tls = some bp := by rw [← stepDecision_fst, h]; rfl
      rw [hp]
      rw [decideLoop_phases obs rest (bumpCounter st tls bp) (acc ++ [(tls, bp, d)])]
      simp

lemma phasesOf_decide (st : CtrlState) (obs : Observation) :
    phasesOf (decide_next_phase st obs).1 = decidePhases st obs := by
  unfold phasesOf decide_next_phase decidePhases
  dsimp only
  have hmain : (decideLoop obs st.tls_ids st []).1.map (fun e => (e.1, e.2.1)) =
      phaseLoop obs st.tls_ids st [] := decideLoop_phases obs st.tls_ids st []
  rw [← hmain]
  cases (decideLoop obs st.tls_ids st []).1 with
  | nil => rfl
  | cons e es => rfl

/-! Stability of the descending insertion sort: any relation that holds
automatically between entries of distinct scores is preserved by the sort. -/

lemma pairwise_orderedInsert_score (Q : Int × ℚ → Int × ℚ → Prop)
    (hQ : ∀ a b, a.2 ≠ b.2 → Q a b) (x : Int × ℚ) :
    ∀ (l : List (Int × ℚ)), (∀ y ∈ l, Q x y) → l.Pairwise Q →
      (List.orderedInsert scoreDesc x l).Pairwise Q
  | [], _, _ => by simp
  | y :: ys, hx, hl => by
    unfold List.orderedInsert
    split
    · exact List.pairwise_cons.mpr ⟨hx, hl⟩
    · rename_i hky
      have hlt : x.2 < y.2 := lt_of_not_le hky
      have hyx : Q y x := hQ y x (ne_of_gt hlt)
      rcases List.pairwise_cons.mp hl with ⟨hyall, hys⟩
      refine List.pairwise_cons.mpr ⟨?_, pairwise_orderedInsert_score Q hQ x ys
        (fun z hz => hx z (List.mem_cons_of_mem y hz)) hys⟩
      intro z hz
      rcases (List.mem_orderedInsert scoreDesc).mp hz with rfl | hzys
      · exact hyx
      · exact hyall z hzys

lemma pairwise_insertionSort_score (Q : Int × ℚ → Int × ℚ → Prop)
    (hQ : ∀ a b, a.2 ≠ b.2 → Q a b) :
    ∀ (l : List (Int × ℚ)), l.Pairwise Q →
      (List.insertionSort scoreDesc l).Pairwise Q
  | [], _ => by simp
  | x :: xs, h => by
    rcases List.pairwise_cons.mp h with ⟨hx, hxs⟩
    unfold List.insertionSort
    refine pairwise_orderedInsert_score Q hQ x _ ?_
      (pairwise_insertionSort_score Q hQ xs hxs)
    intro y hy
    exact hx y ((List.perm_insertionSort scoreDesc xs).mem_iff.mp hy)

lemma raw_pairwise_stable (st : CtrlState) (obs : Observation) (tls : String)
    (hsorted : List.Sorted (· ≤ ·) (st.green_phases tls)) :
    List.Pairwise (fun a b : Int × ℚ => a.2 = b.2 → a.1 ≤ b.1)
      (_get_phase_priority st obs tls) := by
  unfold _get_phase_priority
  refine pairwise_insertionSort_score _ (fun a b hne he => absurd he hne) _ ?_
  refine List.pairwise_map.mpr (List.Pairwise.imp ?_ hsorted)
  intro a b hab _
  exact hab

lemma adjusted_pairwise_stable (st : CtrlState) (obs : Observation) (tls : String)
    (li : LightInfo) (hsorted : List.Sorted (· ≤ ·) (st.green_phases tls)) :
    List.Pairwise (fun a b : Int × ℚ =>
      (a.2 = b.2 ∧ _calculate_phase_efficiency obs tls a.1 =
        _calculate_phase_efficiency obs tls b.1) → a.1 ≤ b.1)
      (adjustedPriorities st obs tls li) := by
  unfold adjustedPriorities
  refine pairwise_insertionSort_score _ (fun a b hne he => absurd he.1 hne) _ ?_
  refine List.pairwise_map.mpr ?_
  refine List.Pairwise.imp_of_mem ?_ (raw_pairwise_stable st obs tls hsorted)
  intro a b ha hb hab hcond
  rcases hcond with ⟨_, heff⟩
  rw [applyPenalty_fst, applyPenalty_fst] at heff ⊢
  rcases raw_entry st obs tls ha with ⟨_, ha2⟩
  rcases raw_entry st obs tls hb with ⟨_, hb2⟩
  exact hab (by rw [ha2, hb2, heff])

/-! Initialization facts. -/

lemma isGreenPhase_iff (ph : TrafficPhase) :
    isGreenPhase ph = true ↔ ('y' ∉ ph.state ∧ ('G' ∈ ph.state ∨ 'g' ∈ ph.state)) := by
  simp [isGreenPhase]

lemma greensRaw_eq_nil_iff (phases : List TrafficPhase) :
    greensRaw phases = [] ↔
      ∀ ph ∈ phases, ¬('y' ∉ ph.state ∧ ('G' ∈ ph.state ∨ 'g' ∈ ph.state)) := by
  unfold greensRaw
  rw [List.map_eq_nil_iff, List.filter_eq_nil_iff]
  constructor
  · intro h ph hph hgreen
    exact h ph hph (isGreenPhase_iff ph |>.mpr hgreen)
  · intro h ph hph hgreen
    exact h ph hph (isGreenPhase_iff ph |>.mp hgreen)

lemma initLoop_error_iff :
    ∀ (cats : List (String × List TrafficPhase)) (st : CtrlState),
      (∃ e, initLoop cats st = Except.error e) ↔ ∃ c ∈ cats, greensRaw c.2 = []
  | [], st => by simp [initLoop]
  | (tls, phases) :: rest, st => by
    unfold initLoop
    dsimp only
    split
    · rename_i hemp
      constructor
      · intro _
        exact ⟨(tls, phases), List.mem_cons_self _ _, List.isEmpty_iff.mp hemp⟩
      · intro _
        exact ⟨tls, rfl⟩
    · rename_i hemp
      rw [initLoop_error_iff rest _]
      constructor
      · rintro ⟨c, hc, hnil⟩
        exact ⟨c, List.mem_cons_of_mem _ hc, hnil⟩
      · rintro ⟨c, hc, hnil⟩
        rcases List.mem_cons.mp hc with rfl | hcr
        · exact absurd (by rw [hnil]; rfl) hemp
        · exact ⟨c, hcr, hnil⟩

/-! Further characterizations of the per-intersection step. -/

lemma stepPhase_eq_some_iff (st : CtrlState) (obs : Observation) (t : String) (p : Int) :
    stepPhase st obs t = some p ↔ ∃ d, stepDecision st obs t = some (p, d) := by
  rw [← stepDecision_fst]
  cases h : stepDecision st obs t with
  | none => simp
  | some pd =>
    obtain ⟨q, dd⟩ := pd
    change some q = some p ↔ _
    constructor
    · intro hq
      injection hq with hq
      exact ⟨dd, by rw [hq]⟩
    · rintro ⟨d, hd⟩
      injection hd with hd
      exact congrArg some (congrArg Prod.fst hd)

lemma stepDecision_some_iff (st : CtrlState) (obs : Observation) (t : String) :
    (∃ p d, stepDecision st obs t = some (p, d)) ↔
      ∃ li, lightsLookup obs t = some (some li) ∧ li.time_to_next_switch ≤ 1/2 := by
  unfold stepDecision
  cases h : lightsLookup obs t with
  | none => simp
  | some mo =>
    cases mo with
    | none => simp
    | some li =>
      dsimp only
      split
      · rename_i hlt
        constructor
        · rintro ⟨p, d, hx⟩
          exact absurd hx (by simp)
        · rintro ⟨li', hli, hle⟩
          injection hli with h1
          injection h1 with h2
          exact absurd hle (not_le.mpr (h2 ▸ hlt))
      · rename_i hlt
        exact ⟨fun _ => ⟨li, rfl, not_lt.mp hlt⟩, fun _ => ⟨_, _, rfl⟩⟩

/-! Evaluation of the concrete scenarios. -/

lemma decide_next_phase_single (st : CtrlState) (obs : Observation) (t : String)
    (hids : st.tls_ids = [t]) (p : Int) (d : ℝ)
    (hstep : stepDecision st obs t = some (p, d)) :
    (decide_next_phase st obs).1 = some [(t, p, d)] := by
  unfold decide_next_phase
  rw [hids]
  dsimp only
  unfold decideLoop
  rw [hstep]
  rfl

lemma c2_select : selectPhase stTwo obsC2 "t" liC2 = 2 := by
  norm_num +decide [selectPhase, adjustedPriorities, _get_phase_priority, rawBestEff,
    currentRawEff, applyPenalty, scoreDesc, _calculate_phase_efficiency,
    _estimate_phase_capacity, _calculate_waiting_traffic, stTwo, obsC2, liC2,
    List.insertionSort, List.orderedInsert, List.find?]

lemma c2_duration : phaseDuration stTwo obsC2 "t" 2 10 = 227/10 := by
  unfold phaseDuration
  have hw : _calculate_waiting_traffic obsC2 "t" 2 = 50 := by
    norm_num [_calculate_waiting_traffic, obsC2]
  have hcap : _estimate_phase_capacity obsC2 "t" 2 = 175 := by
    norm_num [_estimate_phase_capacity, _calculate_waiting_traffic, obsC2]
  have hmin : stTwo.min_green_duration = (7:ℚ) := rfl
  have hmax : stTwo.max_green_duration = (70:ℚ) := rfl
  rw [hw, hcap, hmin, hmax]
  dsimp only
  have hc1 : ((50:ℚ):ℝ) = 50 := by norm_num
  have hc2 : ((175:ℚ):ℝ) = 175 := by norm_num
  have hc3 : ((7:ℚ):ℝ) = 7 := by norm_num
  have hc4 : ((70:ℚ):ℝ) = 70 := by norm_num
  rw [hc1, hc2, hc3, hc4]
  have hlb := sqrt175_lb
  have hub := sqrt175_ub
  set s : ℝ := Real.sqrt 175 with hs
  rw [show (7:ℝ) + 27/100 * 50 + 17/100 * s = 41/2 + 17/100 * s from by ring]
  rw [min_eq_right (by nlinarith : (41/2 + 17/100 * s : ℝ) ≤ 70)]
  rw [max_eq_right (by nlinarith : (7:ℝ) ≤ 41/2 + 17/100 * s)]
  rw [if_neg (by norm_num : ¬ (60:ℚ) < 10)]
  unfold round1
  rw [rte_of_bounds (10 * (41/2 + 17/100 * s)) 227 (by push_cast; nlinarith)
    (by push_cast; nlinarith)]
  norm_num

lemma c2_eval : (decide_next_phase stTwo obsC2).1 = some [("t", 2, (227/10 : ℝ))] := by
  refine decide_next_phase_single stTwo obsC2 "t" rfl 2 (227/10) ?_
  have hli : lightsLookup obsC2 "t" = some (some liC2) := rfl
  rw [stepDecision_some_gate stTwo obsC2 "t" liC2 hli (by norm_num [liC2]), c2_select]
  rw [show liC2.time_in_phase = 10 from rfl, c2_duration]

lemma c3_select : selectPhase stOne obsC3 "t" liC3 = 0 := by
  norm_num +decide [selectPhase, adjustedPriorities, _get_phase_priority, rawBestEff,
    currentRawEff, applyPenalty, scoreDesc, _calculate_phase_efficiency,
    _estimate_phase_capacity, _calculate_waiting_traffic, stOne, obsC3, liC3,
    List.insertionSort, List.orderedInsert, List.find?]

lemma c3_duration : phaseDuration stOne obsC3 "t" 0 61 = 39/5 := by
  unfold phaseDuration
  have hw : _calculate_waiting_traffic obsC3 "t" 0 = 0 := rfl
  have hcap : _estimate_phase_capacity obsC3 "t" 0 = 100 := by
    norm_num [_estimate_phase_capacity, _calculate_waiting_traffic, obsC3]
  have hmin : stOne.min_green_duration = (7:ℚ) := rfl
  have hmax : stOne.max_green_duration = (70:ℚ) := rfl
  rw [hw, hcap, hmin, hmax]
  dsimp only
  have hc1 : ((0:ℚ):ℝ) = 0 := by norm_num
  have hc2 : ((100:ℚ):ℝ) = 100 := by norm_num
  have hc3 : ((7:ℚ):ℝ) = 7 := by norm_num
  have hc4 : ((70:ℚ):ℝ) = 70 := by norm_num
  rw [hc1, hc2, hc3, hc4, sqrt_hundred]
  rw [show (7:ℝ) + 27/100 * 0 + 17/100 * 10 = 87/10 from by ring]
  rw [min_eq_right (by norm_num : (87/10:ℝ) ≤ 70), max_eq_right (by norm_num : (7:ℝ) ≤ 87/10)]
  rw [if_pos (by norm_num : (60:ℚ) < 61)]
  unfold round1
  rw [show (10:ℝ) * (87/10 * (9/10)) = 783/10 from by ring]
  rw [rte_of_bounds (783/10) 78 (by norm_num) (by norm_num)]
  norm_num

lemma c3_eval : (decide_next_phase stOne obsC3).1 = some [("t", 0, (39/5 : ℝ))] := by
  refine decide_next_phase_single stOne obsC3 "t" rfl 0 (39/5) ?_
  have hli : lightsLookup obsC3 "t" = some (some liC3) := rfl
  rw [stepDecision_some_gate stOne obsC3 "t" liC3 hli (by norm_num [liC3]), c3_select]
  rw [show liC3.time_in_phase = 61 from rfl, c3_duration]

lemma duration_in_decision_ge (st : CtrlState) (obs : Observation)
    (hmin : st.min_green_duration = 7) (hmax : st.max_green_duration = 70)
    (hw : ∀ t q, 0 ≤ obs.waiting_vehicles t q) (dec : List (String × Int × ℝ))
    (hdec : (decide_next_phase st obs).1 = some dec) (tls : String) (p : Int) (d : ℝ)
    (hmem : (tls, p, d) ∈ dec) : (7 : ℝ) ≤ d := by
  rcases (mem_decision_iff st obs tls p d).mp ⟨dec, hdec, hmem⟩ with ⟨_, hstep⟩
  rcases stepDecision_some_inv st obs tls p d hstep with ⟨li, _, _, _, hd⟩
  rw [hd]
  exact phaseDuration_ge st obs tls p li.time_in_phase hmin hmax (hw tls p)

lemma selectPhase_stay (st : CtrlState) (obs : Observation) (tls : String) (li : LightInfo)
    {cp : Int} (hg : st.green_phases tls ≠ []) (hcp : li.current_phase = some cp)
    (hmem : cp ∈ st.green_phases tls)
    (hstay : ∀ q ∈ st.green_phases tls,
      (17/20) * _calculate_phase_efficiency obs tls q ≤
        _calculate_phase_efficiency obs tls cp) :
    selectPhase st obs tls li = cp := by
  unfold selectPhase
  rw [hcp]
  dsimp only
  rw [currentRawEff_eq st obs tls hmem]
  rcases rawBestEff_eq_eff st obs tls hg with ⟨q, hq, heq⟩
  rw [if_pos (heq ▸ hstay q hq)]

/-! Claim theorems. -/

/-- C1 (amended): the phase emitted for an intersection is one of its green
phases whenever some green phase has positive raw efficiency, or the reported
current phase is itself a green phase (or absent).  The original claim fails
when every raw efficiency is 0 and the current phase is invalid: then the
stay rule fires on `0 >= 0.85 * 0` and emits the invalid phase itself. -/
theorem c1_green_emission (st : CtrlState) (obs : Observation) (hwf : WF st)
    (dec : List (String × Int × ℝ)) (hdec : (decide_next_phase st obs).1 = some dec)
    (tls : String) (p : Int) (d : ℝ) (hmem : (tls, p, d) ∈ dec)
    (h : (∃ q ∈ st.green_phases tls, 0 < _calculate_phase_efficiency obs tls q) ∨
      (∀ li cp, lightsLookup obs tls = some (some li) → li.current_phase = some cp →
        cp ∈ st.green_phases tls)) :
    p ∈ st.green_phases tls := by
  rcases (mem_decision_iff st obs tls p d).mp ⟨dec, hdec, hmem⟩ with ⟨hin, hstep⟩
  rcases stepDecision_some_inv st obs tls p d hstep with ⟨li, hli, _, hp, _⟩
  have hg : st.green_phases tls ≠ [] := (hwf.2 tls hin).1
  rw [hp]
  apply selectPhase_mem st obs tls li hg
  rcases h with ⟨q, hq, hpos⟩ | hvalid
  · exact Or.inr (lt_of_lt_of_le hpos (rawBestEff_ge st obs tls hg q hq))
  · exact Or.inl (fun cp hcp => hvalid li cp hli hcp)

/-- C1 counterexample: with green phases `[0, 2]`, an invalid
`current_phase = 7` and no waiting traffic (all raw efficiencies 0), the
emitted `phase_id` is 7, which is not a green phase. -/
theorem c1_counterexample :
    phasesOf (decide_next_phase stTwo obsC1).1 = some [("t", 7)] ∧
    (7 : Int) ∉ stTwo.green_phases "t" := by
  constructor
  · rw [phasesOf_decide]
    norm_num +decide [decidePhases, phaseLoop, stepPhase, lightsLookup, obsC1, liC1,
      selectPhase, adjustedPriorities, _get_phase_priority, rawBestEff, currentRawEff,
      applyPenalty, scoreDesc, _calculate_phase_efficiency, _estimate_phase_capacity,
      _calculate_waiting_traffic, stTwo, List.insertionSort, List.orderedInsert, List.find?]
  · decide

/-- C1 witness: the amended theorem applied to the end-to-end scenario. -/
theorem c1_witness : WF stTwo ∧ (2 : Int) ∈ stTwo.green_phases "t" :=
  ⟨by decide, c1_green_emission stTwo obsC2 (by decide) [("t", 2, 227/10)] c2_eval
    "t" 2 (227/10) (List.mem_singleton.mpr rfl)
    (Or.inl ⟨2, by decide, by
      norm_num [_calculate_phase_efficiency, _estimate_phase_capacity,
        _calculate_waiting_traffic, obsC2]⟩)⟩

/-- C2 (amended): in the spec's end-to-end scenario (green phases `[0, 2]`,
`current_phase = 0`, `time_in_phase = 10`, `time_to_next_switch = 0`,
waiting `{0: 5, 2: 50}`) the decision selects phase 2 with duration exactly
22.7 (the exact duration is `7 + 13.5 + 0.17*sqrt 175 ≈ 22.7489`, which
rounds to 22.7, not 22.8). -/
theorem c2_scenario :
    (decide_next_phase stTwo obsC2).1 = some [("t", 2, (227/10 : ℝ))] := c2_eval

/-- C2 counterexample: the scenario's emitted duration is 22.7, which is not
the claimed 22.8. -/
theorem c2_counterexample :
    (decide_next_phase stTwo obsC2).1 = some [("t", 2, (227/10 : ℝ))] ∧
    (227/10 : ℝ) ≠ 228/10 :=
  ⟨c2_eval, by norm_num⟩

/-- C3 (amended): with non-negative waiting counts every emitted duration is
at least `min_green = 7.0`; the claimed below-`min_green` window is
unreachable, because the un-decayed clamped duration is always at least
`7 + 0.17*sqrt 100 = 8.7 > min_green / 0.9`, so even after the 0.9 decay and
rounding the duration is at least 7.78. -/
theorem c3_no_subminimal_duration (st : CtrlState) (obs : Observation)
    (hmin : st.min_green_duration = 7) (hmax : st.max_green_duration = 70)
    (hw : ∀ t q, 0 ≤ obs.waiting_vehicles t q) (dec : List (String × Int × ℝ))
    (hdec : (decide_next_phase st obs).1 = some dec) (tls : String) (p : Int) (d : ℝ)
    (hmem : (tls, p, d) ∈ dec) : (7 : ℝ) ≤ d :=
  duration_in_decision_ge st obs hmin hmax hw dec hdec tls p d hmem

/-- C3 counterexample: no observation with non-negative waiting counts and a
long-running phase (`time_in_phase > 60`) yields an emitted duration below
`min_green = 7.0`. -/
theorem c3_counterexample :
    ¬ ∃ (st : CtrlState) (obs : Observation) (dec : List (String × Int × ℝ)) (tls : String)
      (p : Int) (d : ℝ) (li : LightInfo),
      st.min_green_duration = 7 ∧ st.max_green_duration = 70 ∧
      (∀ t q, 0 ≤ obs.waiting_vehicles t q) ∧
      lightsLookup obs tls = some (some li) ∧ 60 < li.time_in_phase ∧
      (decide_next_phase st obs).1 = some dec ∧ (tls, p, d) ∈ dec ∧ d < 7 := by
  rintro ⟨st, obs, dec, tls, p, d, li, hmin, hmax, hw, _, _, hdec, hmem, hlt⟩
  exact absurd (duration_in_decision_ge st obs hmin hmax hw dec hdec tls p d hmem)
    (not_le.mpr hlt)

/-- C3 witness: a concrete decayed decision (`time_in_phase = 61`, no
waiting) emits duration 7.8, and the amended bound applies to it. -/
theorem c3_witness :
    stOne.min_green_duration = 7 ∧ stOne.max_green_duration = 70 ∧
    (∀ t q, 0 ≤ obsC3.waiting_vehicles t q) ∧ (7 : ℝ) ≤ 39/5 :=
  ⟨rfl, rfl, fun _ _ => le_refl 0,
    c3_no_subminimal_duration stOne obsC3 rfl rfl (fun _ _ => le_refl 0)
      [("t", 0, 39/5)] c3_eval "t" 0 (39/5) (List.mem_singleton.mpr rfl)⟩

/-- C4 (amended): in the raw ranking, entries with exactly equal scores keep
the phase-index-ascending enumeration order (earlier index first, so it wins
the selection); in the penalty-adjusted ranking, stability preserves the raw
ranking's order, so the earlier-indexed phase comes first among equal
adjusted scores only when the tied phases also have equal raw efficiencies.
The original claim fails for the adjusted ranking when the tied phases have
distinct raw efficiencies. -/
theorem c4_tiebreak (st : CtrlState) (obs : Observation) (tls : String) (li : LightInfo)
    (hwf : WF st) (hin : tls ∈ st.tls_ids) :
    List.Pairwise (fun a b : Int × ℚ => a.2 = b.2 → a.1 ≤ b.1)
      (_get_phase_priority st obs tls) ∧
    List.Pairwise (fun a b : Int × ℚ =>
      (a.2 = b.2 ∧ _calculate_phase_efficiency obs tls a.1 =
        _calculate_phase_efficiency obs tls b.1) → a.1 ≤ b.1)
      (adjustedPriorities st obs tls li) :=
  ⟨raw_pairwise_stable st obs tls (hwf.2 tls hin).2,
   adjusted_pairwise_stable st obs tls li (hwf.2 tls hin).2⟩

/-- C4 counterexample: with waiting `{0: 37/6, 2: 43/6}`, `current_phase = 0`
and `time_in_phase = 0`, the two adjusted scores are exactly equal
(`16169/24` each, phase 2's raw lead equals the 120 penalty), phase 0 appears
earlier in the enumeration, yet the adjusted ranking places phase 2 first and
the selector picks phase 2. -/
theorem c4_counterexample :
    stTwo.green_phases "t" = [0, 2] ∧
    adjustedPriorities stTwo obsC4 "t" liC4 = [(2, 16169/24), (0, 16169/24)] ∧
    stepPhase stTwo obsC4 "t" = some 2 := by
  refine ⟨by decide, ?_, ?_⟩
  · norm_num +decide [adjustedPriorities, _get_phase_priority, applyPenalty, scoreDesc,
      _calculate_phase_efficiency, _estimate_phase_capacity, _calculate_waiting_traffic,
      stTwo, obsC4, liC4, List.insertionSort, List.orderedInsert]
  · norm_num +decide [stepPhase, lightsLookup, obsC4, liC4, selectPhase, adjustedPriorities,
      _get_phase_priority, rawBestEff, currentRawEff, applyPenalty, scoreDesc,
      _calculate_phase_efficiency, _estimate_phase_capacity, _calculate_waiting_traffic,
      stTwo, List.insertionSort, List.orderedInsert, List.find?]

/-- C4 witness: the amended theorem applied to the end-to-end scenario. -/
theorem c4_witness :
    WF stTwo ∧ "t" ∈ stTwo.tls_ids ∧
    (List.Pairwise (fun a b : Int × ℚ => a.2 = b.2 → a.1 ≤ b.1)
      (_get_phase_priority stTwo obsC2 "t") ∧
    List.Pairwise (fun a b : Int × ℚ =>
      (a.2 = b.2 ∧ _calculate_phase_efficiency obsC2 "t" a.1 =
        _calculate_phase_efficiency obsC2 "t" b.1) → a.1 ≤ b.1)
      (adjustedPriorities stTwo obsC2 "t" liC2)) :=
  ⟨by decide, by decide, c4_tiebreak stTwo obsC2 "t" liC2 (by decide) (by decide)⟩

/-- C5: for an eligible intersection whose current phase is green, whenever
the current phase's raw efficiency is at least 0.85 times every green
phase's raw efficiency (boundary inclusive, since the code tests with `>=`),
the selector keeps the current phase. -/
theorem c5_stay_rule (st : CtrlState) (obs : Observation) (tls : String) (li : LightInfo)
    (cp : Int) (hwf : WF st) (hin : tls ∈ st.tls_ids)
    (hlk : lightsLookup obs tls = some (some li))
    (htts : li.time_to_next_switch ≤ 1/2) (hcp : li.current_phase = some cp)
    (hmem : cp ∈ st.green_phases tls)
    (hstay : ∀ q ∈ st.green_phases tls,
      (17/20) * _calculate_phase_efficiency obs tls q ≤
        _calculate_phase_efficiency obs tls cp) :
    stepPhase st obs tls = some cp := by
  unfold stepPhase
  rw [hlk]
  dsimp only
  rw [if_neg (not_lt.mpr htts)]
  exact congrArg some (selectPhase_stay st obs tls li (hwf.2 tls hin).1 hcp hmem hstay)

/-- C5 witness: waiting `{0: 75, 2: 250/3}` puts phase 0's raw efficiency
(15937.5) at exactly 0.85 times phase 2's (18750); the selector keeps the
current phase 0 although phase 2 is nominally best. -/
theorem c5_witness :
    WF stTwo ∧ (0 : Int) ∈ stTwo.green_phases "t" ∧
    stepPhase stTwo obsC5 "t" = some 0 := by
  refine ⟨by decide, by decide, ?_⟩
  refine c5_stay_rule stTwo obsC5 "t" liC5 0 (by decide) (by decide) rfl
    (by norm_num [liC5]) rfl (by decide) ?_
  intro q hq
  have hq2 : q = 0 ∨ q = 2 := by simpa [stTwo] using hq
  rcases hq2 with rfl | rfl <;>
    norm_num [_calculate_phase_efficiency, _estimate_phase_capacity,
      _calculate_waiting_traffic, obsC5]

/-- C6: the decision contains exactly the controller's intersections that
carry (truthy) light info with `time_to_next_switch <= 0.5`; a decision that
would be an empty map is returned as the explicit absence value `none`, never
as an empty-but-present map; and the decision is `none` exactly when every
such intersection has `time_to_next_switch > 0.5`. -/
theorem c6_eligibility (st : CtrlState) (obs : Observation) (hwf : WF st) :
    (∀ tls, (∃ dec p d, (decide_next_phase st obs).1 = some dec ∧ (tls, p, d) ∈ dec) ↔
        (tls ∈ st.tls_ids ∧ ∃ li, lightsLookup obs tls = some (some li) ∧
          li.time_to_next_switch ≤ 1/2)) ∧
    (∀ dec, (decide_next_phase st obs).1 = some dec → dec ≠ []) ∧
    ((decide_next_phase st obs).1 = none ↔
      ∀ tls ∈ st.tls_ids, ∀ li, lightsLookup obs tls = some (some li) →
        (1/2 : ℚ) < li.time_to_next_switch) := by
  refine ⟨?_, ?_, ?_⟩
  · intro tls
    constructor
    · rintro ⟨dec, p, d, hdec, hmem⟩
      rcases (mem_decision_iff st obs tls p d).mp ⟨dec, hdec, hmem⟩ with ⟨hin, hstep⟩
      exact ⟨hin, (stepDecision_some_iff st obs tls).mp ⟨p, d, hstep⟩⟩
    · rintro ⟨hin, hli⟩
      rcases (stepDecision_some_iff st obs tls).mpr hli with ⟨p, d, hstep⟩
      rcases (mem_decision_iff st obs tls p d).mpr ⟨hin, hstep⟩ with ⟨dec, hdec, hmem⟩
      exact ⟨dec, p, d, hdec, hmem⟩
  · intro dec hdec
    unfold decide_next_phase at hdec
    dsimp only at hdec
    split at hdec
    · exact absurd hdec (by simp)
    · rename_i hemp
      injection hdec with h
      intro hnil
      exact hemp (by rw [h, hnil]; rfl)
  · rw [decision_none_iff]
    constructor
    · intro hall tls hin li hli
      exact (stepDecision_none_iff st obs tls).mp (hall tls hin) li hli
    · intro hall tls hin
      exact (stepDecision_none_iff st obs tls).mpr (fun li hli => hall tls hin li hli)

/-- C6 witness: with `"a"` at `time_to_next_switch = 0.5` and `"b"` at
`0.51`, the decision contains `"a"` and not `"b"`. -/
theorem c6_witness :
    WF stPair ∧
    (∃ dec p d, (decide_next_phase stPair obsC6).1 = some dec ∧ ("a", p, d) ∈ dec) ∧
    ¬(∃ dec p d, (decide_next_phase stPair obsC6).1 = some dec ∧ ("b", p, d) ∈ dec) := by
  have hwf : WF stPair := by decide
  have h := c6_eligibility stPair obsC6 hwf
  refine ⟨hwf, ?_, ?_⟩
  · exact (h.1 "a").mpr ⟨by decide, { time_to_next_switch := 1/2 }, rfl, le_refl _⟩
  · intro hex
    rcases (h.1 "b").mp hex with ⟨_, li, hli, hle⟩
    have hli2 : some (some ({ time_to_next_switch := 51/100 } : LightInfo)) =
        some (some li) := hli
    injection hli2 with h1
    injection h1 with h2
    rw [← h2] at hle
    norm_num at hle

/-- C7: construction fails (with a `RuntimeError`) if and only if some
intersection's phase catalog has no phase whose signal-state string contains
no `'y'` and at least one `'G'` or `'g'`; the failure happens inside
construction, before any tick is processed. -/
theorem c7_empty_catalog (catalogs : List (String × List TrafficPhase)) :
    (∃ e, controllerInit catalogs = Except.error e) ↔
      ∃ c ∈ catalogs, ∀ ph ∈ c.2,
        ¬('y' ∉ ph.state ∧ ('G' ∈ ph.state ∨ 'g' ∈ ph.state)) := by
  unfold controllerInit
  rw [initLoop_error_iff]
  constructor
  · rintro ⟨c, hc, hnil⟩
    exact ⟨c, hc, (greensRaw_eq_nil_iff c.2).mp hnil⟩
  · rintro ⟨c, hc, hall⟩
    exact ⟨c, hc, (greensRaw_eq_nil_iff c.2).mpr hall⟩

/-- C7 witness: a catalog whose only phases are `"yG"` and `"rr"` aborts
construction; a catalog containing `"Gr"` and `"rg"` phases does not. -/
theorem c7_witness :
    (∃ e, controllerInit catsBad = Except.error e) ∧
    ¬(∃ e, controllerInit catsOK = Except.error e) :=
  ⟨(c7_empty_catalog catsBad).mpr (by decide),
   fun h => absurd ((c7_empty_catalog catsOK).mp h) (by decide)⟩

/-- C8: `decide_next_phase` is deterministic — two controllers that agree on
`tls_ids`, `green_phases` and the duration bounds produce identical decisions
on the same observation, whatever their diagnostic counters (and cursors)
hold. -/
theorem c8_deterministic (st1 st2 : CtrlState) (obs : Observation)
    (hids : st1.tls_ids = st2.tls_ids) (hg : st1.green_phases = st2.green_phases)
    (hmin : st1.min_green_duration = st2.min_green_duration)
    (hmax : st1.max_green_duration = st2.max_green_duration) :
    (decide_next_phase st1 obs).1 = (decide_next_phase st2 obs).1 := by
  unfold decide_next_phase
  dsimp only
  rw [hids, decideLoop_congr_st obs st2.tls_ids st1 st2 [] hg hmin hmax]

/-- C8 witness: the same controller with counters all 0 and all 5 yields the
same decision. -/
theorem c8_witness :
    (decide_next_phase stTwo obsC2).1 = (decide_next_phase stTwoCtr obsC2).1 :=
  c8_deterministic stTwo stTwoCtr obsC2 rfl rfl rfl rfl

/-- C9: a call to `decide_next_phase` leaves `tls_ids`, `green_phases`,
`cursor` and the duration bounds unchanged, and increments by exactly 1 the
diagnostic counter of exactly the `(intersection, phase)` pairs present in
the returned decision, leaving every other counter entry unchanged. -/
theorem c9_counter_frame (st : CtrlState) (obs : Observation) (hwf : WF st) :
    (decide_next_phase st obs).2.tls_ids = st.tls_ids ∧
    (decide_next_phase st obs).2.green_phases = st.green_phases ∧
    (decide_next_phase st obs).2.cursor = st.cursor ∧
    (decide_next_phase st obs).2.min_green_duration = st.min_green_duration ∧
    (decide_next_phase st obs).2.max_green_duration = st.max_green_duration ∧
    ∀ (tls : String) (p : Int),
      ((∃ d dec, (decide_next_phase st obs).1 = some dec ∧ (tls, p, d) ∈ dec) →
        (decide_next_phase st obs).2.last_phase_actions tls p =
          st.last_phase_actions tls p + 1) ∧
      (¬(∃ d dec, (decide_next_phase st obs).1 = some dec ∧ (tls, p, d) ∈ dec) →
        (decide_next_phase st obs).2.last_phase_actions tls p =
          st.last_phase_actions tls p) := by
  have hfields := decideLoop_state_fields obs st.tls_ids st []
  refine ⟨hfields.1, hfields.2.1, hfields.2.2.1, hfields.2.2.2.1, hfields.2.2.2.2, ?_⟩
  intro tls p
  have hcnt := decideLoop_counter obs st st.tls_ids st [] hwf.1 rfl rfl rfl tls p
  have hiff : (∃ d dec, (decide_next_phase st obs).1 = some dec ∧ (tls, p, d) ∈ dec) ↔
      (tls ∈ st.tls_ids ∧ stepPhase st obs tls = some p) := by
    constructor
    · rintro ⟨d, dec, hdec, hmem⟩
      rcases (mem_decision_iff st obs tls p d).mp ⟨dec, hdec, hmem⟩ with ⟨hin, hstep⟩
      exact ⟨hin, (stepPhase_eq_some_iff st obs tls p).mpr ⟨d, hstep⟩⟩
    · rintro ⟨hin, hsp⟩
      rcases (stepPhase_eq_some_iff st obs tls p).mp hsp with ⟨d, hstep⟩
      rcases (mem_decision_iff st obs tls p d).mpr ⟨hin, hstep⟩ with ⟨dec, hdec, hmem⟩
      exact ⟨d, dec, hdec, hmem⟩
  exact ⟨fun hex => hcnt.1 (hiff.mp hex), fun hnex => hcnt.2 (fun hc => hnex (hiff.mpr hc))⟩

/-- C9 witness: the frame theorem applied to the end-to-end scenario. -/
theorem c9_witness :
    WF stTwo ∧ (decide_next_phase stTwo obsC2).2.green_phases = stTwo.green_phases :=
  ⟨by decide, (c9_counter_frame stTwo obsC2 (by decide)).2.1⟩

/-- C10: an intersection bound to a falsy lights value is skipped exactly as
if it were absent from the lights map (same decision and same final state); a
missing `"lights"` key behaves like an empty lights map; and a skipped
intersection never appears in the output.  No error is raised in either
case. -/
theorem c10_falsy_skip (st : CtrlState) (obs : Observation) :
    (∀ (f : String → Option (Option LightInfo)) (tls : String),
      obs.lights = some f → f tls = some none →
      decide_next_phase st obs =
        decide_next_phase st { obs with lights := some (Function.update f tls none) }) ∧
    (obs.lights = none →
      decide_next_phase st obs =
        decide_next_phase st { obs with lights := some (fun _ => none) }) ∧
    (∀ tls, (lightsLookup obs tls = none ∨ lightsLookup obs tls = some none) →
      ∀ p d dec, (decide_next_phase st obs).1 = some dec → (tls, p, d) ∉ dec) := by
  refine ⟨?_, ?_, ?_⟩
  · intro f tls hlights hf
    have hstep : ∀ (st' : CtrlState) (t : String),
        stepDecision st' obs t =
          stepDecision st' { obs with lights := some (Function.update f tls none) } t := by
      intro st' t
      by_cases ht : t = tls
      · subst ht
        have h1 : lightsLookup obs t = some none := by
          unfold lightsLookup
          rw [hlights]
          exact hf
        have h2 : lightsLookup { obs with lights := some (Function.update f t none) } t =
            none := by
          unfold lightsLookup
          dsimp only
          rw [Function.update_same]
        unfold stepDecision
        rw [h1, h2]
      · refine stepDecision_congr_obs st' obs _ t ?_ rfl
        unfold lightsLookup
        rw [hlights]
        dsimp only
        rw [Function.update_noteq ht]
    unfold decide_next_phase
    rw [decideLoop_congr_obs obs _ hstep st.tls_ids st []]
  · intro hlights
    have hstep : ∀ (st' : CtrlState) (t : String),
        stepDecision st' obs t =
          stepDecision st' { obs with lights := some (fun _ => none) } t := by
      intro st' t
      refine stepDecision_congr_obs st' obs _ t ?_ rfl
      unfold lightsLookup
      rw [hlights]
    unfold decide_next_phase
    rw [decideLoop_congr_obs obs _ hstep st.tls_ids st []]
  · intro tls hor p d dec hdec hmem
    rcases (mem_decision_iff st obs tls p d).mp ⟨dec, hdec, hmem⟩ with ⟨_, hstep⟩
    have hnone : stepDecision st obs tls = none := by
      unfold stepDecision
      rcases hor with h | h <;> rw [h]
    rw [hnone] at hstep
    exact absurd hstep (by simp)

/-- C10 witness: the skip behaviour applied to an observation binding `"t"`
to a falsy value, and to an observation with no `"lights"` key. -/
theorem c10_witness :
    decide_next_phase stTwo obsC10 =
      decide_next_phase stTwo
        { obsC10 with
          lights := some (Function.update (fun t => if t = "t" then some none else none) "t" none) } ∧
    decide_next_phase stTwo obsC10b =
      decide_next_phase stTwo { obsC10b with lights := some (fun _ => none) } ∧
    ∀ p d dec, (decide_next_phase stTwo obsC10).1 = some dec → ("t", p, d) ∉ dec :=
  ⟨(c10_falsy_skip stTwo obsC10).1 _ "t" rfl rfl,
   (c10_falsy_skip stTwo obsC10b).2.1 rfl,
   fun p d dec => (c10_falsy_skip stTwo obsC10).2.2 "t" (Or.inr rfl) p d dec⟩
